import Mathlib

/-!
Verification development for the cluster `analyze` task
(`src/debugging/tasks/analyze.js`).

The JavaScript source walks an agency dump (a nested tree of JS objects)
and fills an `info` record with finding collections.  We embed the data
the analyzers consume as explicit Lean structures:

* JS objects used as string-keyed maps become association lists
  `List (String × α)`; key order is the object's insertion/iteration
  order, which `Object.entries`/`Object.keys` follow.
* absent keys/properties become `Option`; an analyzer that would throw a
  `TypeError` on an absent section returns `none`.
* JS `Set`s of strings deduplicate by value (SameValueZero), modelled by
  `setAdd`; JS `Set`s of freshly allocated objects never deduplicate
  (reference equality), so they are modelled as plain append lists.
-/

namespace Analyze

/-- Association-list lookup, modelling `map.get(k)` / `obj[k]`. -/
def mapGet (m : List (String × α)) (k : String) : Option α :=
  (m.find? (fun p => p.1 == k)).map (·.2)

/-- Key membership, modelling `map.has(k)` / `obj.hasOwnProperty(k)`. -/
def hasKey (m : List (String × α)) (k : String) : Bool :=
  (m.find? (fun p => p.1 == k)).isSome

/-- Modelling `map.set(k, v)`: replaces the value in place if the key is
present (JS `Map.set` keeps the original insertion position), otherwise
appends the new binding. -/
def mapSet (m : List (String × α)) (k : String) (v : α) : List (String × α) :=
  if hasKey m k then m.map (fun p => if p.1 == k then (k, v) else p)
  else m ++ [(k, v)]

/-- Modelling `set.add(s)` for a JS `Set` of strings: value-based
deduplication, insertion order kept. -/
def setAdd (l : List String) (s : String) : List String :=
  if l.contains s then l else l ++ [s]

/-- First index of character `c` in `cs` at or after position `start`
(absolute index), or `none`.  Models `String.prototype.indexOf` for a
single-character needle. -/
def findCharFrom : List Char → Char → Nat → Option Nat
  | [], _, _ => none
  | x :: rest, c, 0 =>
    if x = c then some 0 else (findCharFrom rest c 0).map (· + 1)
  | _ :: rest, c, n + 1 => (findCharFrom rest c n).map (· + 1)

/-- Models `url.slice(0, e)` where `e` is the result of `indexOf` (so it
may be `-1`): a negative end counts from the end of the string, clamped
at 0. -/
def jsSliceToEnd (s : String) (e : Int) : String :=
  let n := s.data.length
  let stop : Nat := if e < 0 then n - (-e).toNat else min e.toNat n
  String.mk (s.data.take stop)

/-- Models `String.prototype.replace(pat, rep)` with a string pattern:
only the first occurrence is replaced. -/
def jsReplaceOnce (s pat rep : String) : String :=
  match s.splitOn pat with
  | [] => s
  | [_] => s
  | a :: b :: rest => a ++ rep ++ String.intercalate pat (b :: rest)

/-- Models lines 54-57 of `analyze.js`: `url.slice(0, end)` where
`fs = url.indexOf("/")` and `end = url.indexOf("/", fs + 2)`.  For a
normal `http://host:port/path` URL this is the scheme-and-authority
prefix. -/
def callbackUrlPrefix (url : String) : String :=
  let cs := url.data
  let f : Int := match findCharFrom cs '/' 0 with
    | some n => (n : Int)
    | none => -1
  let e : Int := match findCharFrom cs '/' (f + 2).toNat with
    | some n => (n : Int)
    | none => -1
  jsSliceToEnd url e

/-- Entry of `Supervision.Health`: `{Status, Endpoint}`. -/
structure HealthRecord where
  Status : String
  Endpoint : String
deriving DecidableEq

/-- Planned index record: `{id, type, name, fields, unique, sparse}`. -/
structure IndexRec where
  id : String
  type : String
  name : String
  fields : List String
  unique : Bool
  sparse : Bool
deriving DecidableEq

/-- Planned collection, the parts the analyzers read:
`shards` is a shard-name-keyed object (absent ↦ `none`),
each shard an ordered server list (index 0 = leader). -/
structure PlanCollection where
  shards : Option (List (String × List String))
  distributeShardsLike : Option String
  isSmart : Bool
  indexes : List IndexRec
deriving DecidableEq

/-- Entry of `Current.Collections.<db>.<cid>.<shard>`. -/
structure CurShard where
  servers : List String
  failoverCandidates : List String
deriving DecidableEq

/-- `Plan.Collections`: db name → collection id → collection. -/
abbrev PlanCols := List (String × List (String × PlanCollection))

/-- `Current.Collections`: db name → collection id → shard → record. -/
abbrev CurCols := List (String × List (String × List (String × CurShard)))

/-- The `Plan` section, with the subfields the embedded analyzers read.
`Coordinators` is an object whose keys are coordinator ids; its absence
is observable (a `hasOwnProperty` call on `undefined` throws). -/
structure PlanSection where
  Databases : List String
  Collections : PlanCols
  Coordinators : Option (List String)
deriving DecidableEq

/-- The `Current` section. -/
structure CurrentSection where
  Collections : CurCols
  Coordinators : Option (List String)
deriving DecidableEq

/-- The `Supervision` section; `Health` may itself be absent. -/
structure SupervisionSection where
  Health : Option (List (String × HealthRecord))
deriving DecidableEq

/-- The `dump.arango` tree.  Each top-level section may be absent from a
malformed dump; dereferencing an absent section throws in JS, which the
embedded analyzers surface as `none`. -/
structure ArangoTree where
  Plan : Option PlanSection
  Current : Option CurrentSection
  Supervision : Option SupervisionSection
deriving DecidableEq

/-- The parsed agency dump. -/
structure Dump where
  arango : ArangoTree
deriving DecidableEq

/-- Lines 33-48 (`extractFailed`): collect normalized endpoints of
`FAILED` servers.  `dump.arango.Supervision.Health` throws when
`Supervision` is absent (`none`); when `Health` itself is absent,
lodash `_.each(undefined, f)` iterates nothing. -/
def extractFailed (dump : Dump) : Option (List String) :=
  match dump.arango.Supervision with
  | none => none
  | some sup =>
    let health := sup.Health.getD []
    some (health.foldl (fun acc p =>
      if p.2.Status == "FAILED" then
        acc ++ [if p.2.Endpoint.startsWith "ssl" then
                  jsReplaceOnce p.2.Endpoint "ssl:" "https:"
                else
                  jsReplaceOnce p.2.Endpoint "tcp:" "http:"]
      else acc) [])

/-- Lines 71-91 (`zombieCoordinators`): coordinator ids present in
`Current.Coordinators` but absent from `Plan.Coordinators`.  Accessing
`Plan`, `Current` or `Supervision` when the section is absent throws;
`Object.keys(currentCoords)` throws when `Current.Coordinators` is
absent; `plannedCoords.hasOwnProperty(id)` throws when
`Plan.Coordinators` is absent and at least one id is examined. -/
def zombieCoordinators (dump : Dump) : Option (List String) := do
  let plan ← dump.arango.Plan
  let cur ← dump.arango.Current
  let _ ← dump.arango.Supervision
  let currentCoords ← cur.Coordinators
  match plan.Coordinators with
  | some plannedCoords =>
    pure (currentCoords.filter (fun id => !plannedCoords.contains id))
  | none => if currentCoords.isEmpty then pure [] else none

/-- Modelled from the spec: `helper.extractPrimaries` (required by
`analyze.js` from `../helper.js`, which is not part of this repository)
builds `info.primaries`, the liveness oracle used by every placement
check.  Spec §4.1: "`primaries` = set of node-ids with Status GOOD".
We keep the association-list order of `Supervision.Health`. -/
def extractPrimaries (health : List (String × HealthRecord)) : List String :=
  (health.filter (fun p => p.2.Status == "GOOD")).map (·.1)

/-- Collection-level finding of `noShardCollections`:
`{ db, name, col }`. -/
structure NoShardFinding where
  db : String
  name : String
  col : PlanCollection
deriving DecidableEq

/-- Finding of `realLeaderMissing`:
`{ db, name, distributeShardsLike, col }`. -/
structure RealLeaderFinding where
  db : String
  name : String
  distributeShardsLike : String
  col : PlanCollection
deriving DecidableEq

/-- Finding of `leaderOnDeadServer` / `followerOnDeadServer`:
`{ db, name, shard, server, servers }`. -/
structure DeadServerFinding where
  db : String
  name : String
  shard : String
  server : String
  servers : List String
deriving DecidableEq

/-- Element appended to `info.noPlanDatabases`.  Line 185 is
`info.noPlanDatabases.push(db, collections)`: a two-argument `push`,
so both the database name and its collections object land in the
array as separate elements. -/
abbrev NoPlanEntry := Sum String (List (String × PlanCollection))

/-- Result record of `extractCollectionIntegrity` (lines 174-214). -/
structure CollectionIntegrityResult where
  noPlanDatabases : List NoPlanEntry
  noShardCollections : List NoShardFinding
  realLeaderMissing : List RealLeaderFinding
  leaderOnDeadServer : List DeadServerFinding
  followerOnDeadServer : List DeadServerFinding
deriving DecidableEq

/-- Line 190 skip condition:
`!shards || (Object.keys(shards).length === 0 && !isSmart) || shards.constructor !== Object`.
With `shards` embedded as `Option` of a string-keyed object, the
`constructor` disjunct cannot fire. -/
def noShardSkip (col : PlanCollection) : Bool :=
  col.shards.isNone ||
    ((col.shards.getD []).isEmpty && !col.isSmart)

/-- Lines 202-209, contributions of one shard to `leaderOnDeadServer`:
position `i = 0` when `servers[0]` is not a key of `info.primaries`. -/
def shardLeaderDead (primaries : List String) (db name shard : String)
    (servers : List String) : List DeadServerFinding :=
  (servers.enum.filter (fun p => p.1 == 0 && !primaries.contains p.2)).map
    (fun p => ⟨db, name, shard, p.2, servers⟩)

/-- Lines 202-209, contributions of one shard to `followerOnDeadServer`:
positions `i ≥ 1` whose server is not a key of `info.primaries`. -/
def shardFollowerDead (primaries : List String) (db name shard : String)
    (servers : List String) : List DeadServerFinding :=
  (servers.enum.filter (fun p => p.1 != 0 && !primaries.contains p.2)).map
    (fun p => ⟨db, name, shard, p.2, servers⟩)

/-- Contributions of one collection to `leaderOnDeadServer` (the shard
loop of lines 201-211 runs only for collections that escaped the
`noShardCollections` `continue`). -/
def colLeaderDead (primaries : List String) (db : String)
    (cc : String × PlanCollection) : List DeadServerFinding :=
  if noShardSkip cc.2 then []
  else (cc.2.shards.getD []).flatMap (fun sv =>
    shardLeaderDead primaries db cc.1 sv.1 sv.2)

/-- Contributions of one collection to `followerOnDeadServer`. -/
def colFollowerDead (primaries : List String) (db : String)
    (cc : String × PlanCollection) : List DeadServerFinding :=
  if noShardSkip cc.2 then []
  else (cc.2.shards.getD []).flatMap (fun sv =>
    shardFollowerDead primaries db cc.1 sv.1 sv.2)

/-- Contributions of one database to `leaderOnDeadServer` (a database
absent from `Plan.Databases` is skipped by the `continue` of
line 186). -/
def dbLeaderDead (primaries : List String) (planDBs : List String)
    (dc : String × List (String × PlanCollection)) : List DeadServerFinding :=
  if planDBs.contains dc.1 then dc.2.flatMap (colLeaderDead primaries dc.1)
  else []

/-- Contributions of one database to `followerOnDeadServer`. -/
def dbFollowerDead (primaries : List String) (planDBs : List String)
    (dc : String × List (String × PlanCollection)) : List DeadServerFinding :=
  if planDBs.contains dc.1 then dc.2.flatMap (colFollowerDead primaries dc.1)
  else []

/-- Lines 174-214 (`extractCollectionIntegrity`).  The single pass of
the source pushes into five arrays; each component below lists, in
source order, exactly what that pass pushes into the corresponding
array.  A database absent from `Plan.Databases` contributes only the
two-element `noPlanDatabases` push and is then skipped (`continue`);
a collection failing the `noShardSkip` test contributes only its
`noShardCollections` record.  The `realLeaderMissing` check requires a
truthy `distributeShardsLike` (JS: the empty string is falsy). -/
def extractCollectionIntegrity (planCollections : PlanCols)
    (planDBs : List String) (primaries : List String) :
    CollectionIntegrityResult :=
  { noPlanDatabases := planCollections.flatMap (fun dc =>
      if planDBs.contains dc.1 then []
      else [Sum.inl dc.1, Sum.inr dc.2])
  , noShardCollections := planCollections.flatMap (fun dc =>
      if planDBs.contains dc.1 then
        dc.2.flatMap (fun cc =>
          if noShardSkip cc.2 then [⟨dc.1, cc.1, cc.2⟩] else [])
      else [])
  , realLeaderMissing := planCollections.flatMap (fun dc =>
      if planDBs.contains dc.1 then
        dc.2.flatMap (fun cc =>
          if noShardSkip cc.2 then []
          else match cc.2.distributeShardsLike with
            | some proto =>
              if proto != "" && !hasKey dc.2 proto then
                [⟨dc.1, cc.1, proto, cc.2⟩]
              else []
            | none => [])
      else [])
  , leaderOnDeadServer :=
      planCollections.flatMap (dbLeaderDead primaries planDBs)
  , followerOnDeadServer :=
      planCollections.flatMap (dbFollowerDead primaries planDBs) }

/-- Record pushed by `myPlan.push({shard, servers})` /
`myCurrent.push({shard, servers})` (lines 261-262). -/
structure ShardEntry where
  shard : String
  servers : List String
deriving DecidableEq

/-- Triple `{cid, shard, search}` added to the distribution-group
sets.  The JS sets hold freshly allocated objects, so `Set.add` never
deduplicates them; the embedded sets are append lists. -/
structure Trip where
  cid : String
  shard : String
  search : String
deriving DecidableEq

/-- Value of the `shardGroups` map (lines 219-226):
`plan`/`current` map member cid to its shard-entry list, `db` is the
database of the first-seen member. -/
structure ShardGroup where
  plan : List (String × List ShardEntry)
  current : List (String × List ShardEntry)
  db : String
deriving DecidableEq

/-- Output state of `extractDistributionGroups` (lines 216-299). -/
structure DistResult where
  shardGroups : List (String × ShardGroup)
  violatedDistShardLike : List String
  noInsyncFollower : List Trip
  unplannedLeader : List Trip
  noInsyncAndDeadLeader : List Trip
deriving DecidableEq

/-- Line 260: `currentCollections[db][cid][shard].servers` inside a
`try`; any missing step throws and the shard is skipped. -/
def lookupCur (cur : CurCols) (db cid shard : String) :
    Option (List String) := do
  let d ← mapGet cur db
  let c ← mapGet d cid
  let s ← mapGet c shard
  pure s.servers

/-- Line 268: `!info.primaries.hasOwnProperty(curServers[0])`.  When
`curServers` is empty, `curServers[0]` is `undefined` and
`hasOwnProperty` coerces it to the string key `"undefined"`. -/
def headIsPrimary (primaries : List String) (curServers : List String) :
    Bool :=
  match curServers.head? with
  | some s => primaries.contains s
  | none => primaries.contains "undefined"

/-- Accumulator of the per-shard loop (lines 258-273): the member's
`myPlan`/`myCurrent` arrays plus the three outer-scope sets the loop
adds to. -/
structure ShardAcc where
  myPlan : List ShardEntry
  myCurrent : List ShardEntry
  unplannedLeader : List Trip
  noInsyncFollower : List Trip
  noInsyncAndDeadLeader : List Trip
deriving DecidableEq

/-- Body of the per-shard loop (lines 258-273).  On a successful
Current lookup the entries are pushed, then `unplannedLeader` is fed
when the observed and planned heads differ (`undefined` compares equal
to `undefined` when both lists are empty), and, when the plan wants
replication (`servers.length > 1`) but at most one observed server
remains (`curServers.length <= 1`), `noInsyncFollower` is fed, plus
`noInsyncAndDeadLeader` when the observed head is not a live primary. -/
def shardStep (primaries : List String) (curCols : CurCols)
    (db cid search : String) (acc : ShardAcc) (sv : String × List String) :
    ShardAcc :=
  match lookupCur curCols db cid sv.1 with
  | none => acc
  | some curServers =>
    let t : Trip := ⟨cid, sv.1, search⟩
    let acc :=
      { acc with
        myPlan := acc.myPlan ++ [⟨sv.1, sv.2⟩]
        myCurrent := acc.myCurrent ++ [⟨sv.1, curServers⟩] }
    let acc :=
      if curServers.head? ≠ sv.2.head? then
        { acc with unplannedLeader := acc.unplannedLeader ++ [t] }
      else acc
    if sv.2.length > 1 && curServers.length ≤ 1 then
      let acc := { acc with noInsyncFollower := acc.noInsyncFollower ++ [t] }
      if !headIsPrimary primaries curServers then
        { acc with noInsyncAndDeadLeader := acc.noInsyncAndDeadLeader ++ [t] }
      else acc
    else acc

/-- Models `myPlan.sort((l, r) => l.shard > r.shard)` (lines 275-276)
and the candidate sort of line 350.  The comparator returns a boolean,
which `Array.prototype.sort` coerces to the number 0 or 1 and never to
a negative value; V8's TimSort detects runs and moves elements only on
a negative comparator result, so such a sort call leaves the array in
its original order. -/
def jsSortNonNegComparator (l : List α) : List α := l

/-- Lines 278-288.  `comp` is the first stored member's plan list and
the loop flags `search` at the first index `i < comp.length` with
`comp[i] !== myPlan[i]`.  That is a JS strict inequality between object
references: `comp[i]` is a record allocated while processing an earlier
member and `myPlan[i]` (an object, or `undefined` past the end) is
never the same object, so the comparison holds at every probed index
and the loop flags exactly when `comp` is non-empty. -/
def planComparisonFlags (comp _myPlan : List ShardEntry) : Bool :=
  decide (0 < comp.length)

/-- Body of the per-collection loop of `extractDistributionGroups`
(lines 236-291) acting on the running result state. -/
def distColStep (primaries : List String) (curCols : CurCols) (db : String)
    (st : DistResult) (cc : String × PlanCollection) : DistResult :=
  let cid := cc.1
  let col := cc.2
  match col.shards with
  | none => st
  | some shardsMap =>
    if shardsMap.isEmpty then st
    else
      let search := match col.distributeShardsLike with
        | some p => if p == "" then cid else p
        | none => cid
      let isNewEntry := !hasKey st.shardGroups search
      let groups0 :=
        if isNewEntry then
          mapSet st.shardGroups search ⟨[], [], db⟩
        else st.shardGroups
      let group := (mapGet groups0 search).getD ⟨[], [], db⟩
      let acc0 : ShardAcc :=
        ⟨[], [], st.unplannedLeader, st.noInsyncFollower,
          st.noInsyncAndDeadLeader⟩
      let acc := shardsMap.foldl (shardStep primaries curCols db cid search) acc0
      let myPlan := jsSortNonNegComparator acc.myPlan
      let myCurrent := jsSortNonNegComparator acc.myCurrent
      let violated :=
        if isNewEntry then st.violatedDistShardLike
        else match group.plan.head? with
          | some firstMember =>
            if planComparisonFlags firstMember.2 myPlan then
              setAdd st.violatedDistShardLike search
            else st.violatedDistShardLike
          | none => st.violatedDistShardLike
      { shardGroups :=
          mapSet groups0 search
            { group with
              plan := mapSet group.plan cid myPlan
              current := mapSet group.current cid myCurrent }
        violatedDistShardLike := violated
        noInsyncFollower := acc.noInsyncFollower
        unplannedLeader := acc.unplannedLeader
        noInsyncAndDeadLeader := acc.noInsyncAndDeadLeader }

/-- Lines 216-299 (`extractDistributionGroups`): fold the per-collection
step over every database's collections in iteration order. -/
def extractDistributionGroups (planCols : PlanCols) (curCols : CurCols)
    (primaries : List String) : DistResult :=
  planCols.foldl
    (fun st dc => dc.2.foldl (distColStep primaries curCols dc.1) st)
    ⟨[], [], [], [], []⟩

/-- Lines 324-350 of `saveDistributionGroups`: for one
`noInsyncAndDeadLeader` triple, collect the live candidates from the
member's planned servers at the affected shard position (JS `Map`
insertion order = planned-list order of first appearance), then walk
every member's current layout at that position and append each shard a
candidate is in sync for (`servers.indexOf(c) !== -1`).  Line 350 sorts
the candidate entries with the boolean comparator
`(l, r) => l[1].length > r[1].length`, which never returns a negative
number, so the sort leaves the insertion order unchanged
(`jsSortNonNegComparator`).  An out-of-range `curServers[shardIndex]`
would throw (`none`); `findIndex` returning `-1` makes the subsequent
element access throw as well. -/
def failoverCandidateRanking (primaries : List String) (group : ShardGroup)
    (cid shard : String) : Option (List (String × List String)) := do
  let myPlan ← mapGet group.plan cid
  let shardIndex ← myPlan.findIdx? (fun s => s.shard == shard)
  let entry ← myPlan[shardIndex]?
  let candInit := entry.servers.foldl
    (fun cands s => if primaries.contains s then mapSet cands s [] else cands)
    []
  let res ← group.current.foldl
    (fun acc member => do
      let (allShards, cands) ← acc
      let e ← member.2[shardIndex]?
      pure (allShards ++ [e.shard],
        cands.map (fun cl =>
          if e.servers.contains cl.1 then (cl.1, cl.2 ++ [e.shard]) else cl)))
    (some (([] : List String), candInit))
  pure (jsSortNonNegComparator res.2)

/-- Line 754 condition on one planned follower, as the code computes
it: `current.indexOf(plan[i]) < 1`, i.e. the follower's *first*
occurrence in the observed list is missing (`indexOf` is `-1`) or sits
in the leader slot (index 0). -/
def followerFirstOccurrenceBad (current : List String) (f : String) : Bool :=
  match current.findIdx? (fun s => s == f) with
  | some j => decide (j < 1)
  | none => true

/-- Lines 744-760 (`compareFollowers`): returns `true` when the shard
counts as in sync.  `plan[0] !== current[0]` is modelled on optional
heads (both `undefined` when both lists are empty, and `undefined`
differs from any string); the follower loop returns `false` at the
first follower with `current.indexOf(plan[i]) < 1`
(`followerFirstOccurrenceBad`). -/
def compareFollowers (plan current : List String) : Bool :=
  if plan.head? ≠ current.head? then false
  else if plan.length == 1 then true
  else (plan.drop 1).all (fun f => !followerFirstOccurrenceBad current f)

/-- Finding of `outOfSyncFollowers`:
`{ db, name, shard, servers, current }`. -/
structure OutOfSyncFinding where
  db : String
  name : String
  shard : String
  servers : List String
  current : List String
deriving DecidableEq

/-- Lines 741-784 (`extractOutOfSyncFollowers`): for every planned
shard whose database has a Current entry, compare planned and observed
server lists; a failed Current lookup (`try`/`catch`) skips the shard.
The skip at line 769 is only `!shards || Object.keys(shards).length === 0`
(no smartness or constructor test here). -/
def extractOutOfSyncFollowers (planCols : PlanCols) (curCols : CurCols) :
    List OutOfSyncFinding :=
  planCols.flatMap (fun dc =>
    if hasKey curCols dc.1 then
      dc.2.flatMap (fun cc =>
        match cc.2.shards with
        | none => []
        | some shardsMap =>
          if shardsMap.isEmpty then []
          else shardsMap.flatMap (fun sv =>
            match lookupCur curCols dc.1 cc.1 sv.1 with
            | none => []
            | some current =>
              if compareFollowers sv.2 current then []
              else [⟨dc.1, cc.1, sv.1, sv.2, current⟩]))
    else [])

/-- Lines 826-831: an index record is the corrupted legacy edge shape
when it carries reserved id `"1"`, type and name `"edge"`, and more
than one field. -/
def isBrokenEdgeIndex (ix : IndexRec) : Bool :=
  ix.type == "edge" && ix.name == "edge" && ix.id == "1" &&
    decide (ix.fields.length > 1)

/-- Line 824 / 855: `failed` is set when any index of the list is the
corrupted legacy edge shape. -/
def brokenEdgeCheck (idxs : List IndexRec) : Bool :=
  idxs.any isBrokenEdgeIndex

/-- Lines 834-853: the synthesized replacement index list.  Every index
with id `"1"` becomes the two separate edge indexes (id `"1"` on
`_from`, id `"2"` on `_to`, non-unique, non-sparse); indexes with id
`"2"` are dropped; all other indexes are preserved unchanged. -/
def goodEdgeIndexes (idxs : List IndexRec) : List IndexRec :=
  idxs.flatMap (fun ix =>
    if ix.id == "1" then
      [⟨"1", "edge", "edge", ["_from"], false, false⟩,
       ⟨"2", "edge", "edge", ["_to"], false, false⟩]
    else if ix.id == "2" then []
    else [ix])

/-- Finding of `brokenEdgeIndexes`: `{ path, bad, good }`. -/
structure BrokenEdgeFinding where
  path : String
  bad : List IndexRec
  good : List IndexRec
deriving DecidableEq

/-- Lines 815-864 (`extractBrokenEdgeIndexes`): collections whose index
list contains the corrupted legacy edge shape, with the synthesized
replacement.  Collections with an absent or empty index list are
skipped. -/
def extractBrokenEdgeIndexes (planCols : PlanCols) :
    List BrokenEdgeFinding :=
  planCols.flatMap (fun dc =>
    dc.2.flatMap (fun cc =>
      if cc.2.indexes.isEmpty then []
      else if brokenEdgeCheck cc.2.indexes then
        [⟨"/Plan/Collections/" ++ dc.1 ++ "/" ++ cc.1 ++ "/indexes",
          cc.2.indexes, goodEdgeIndexes cc.2.indexes⟩]
      else []))

/-- Zombie / broken collection record (`{database, cid}`), produced by
`helper.extractDatabases` (external to this repository); the report
phase only reads these fields and tests emptiness. -/
structure ZombieRec where
  database : String
  cid : String
deriving DecidableEq

/-- Dead-primary-in-Current record (`{database, primary}`). -/
structure DeadPrimaryRec where
  database : String
  primary : String
deriving DecidableEq

/-- Missing-system-collections record (`{database, missing}`). -/
structure MissingCollsRec where
  database : String
  missing : List String
deriving DecidableEq

/-- Pending callback: a JS object with a single URL key;
`Object.keys(callback)[0]` (line 54) retrieves that URL. -/
structure Callback where
  url : String
deriving DecidableEq

/-- The `info` record as it stands when the report phase of
`exports.run` begins (lines 888-948): one field per finding collection
the report reads, plus the inputs of `saveZombieCallbacks`.
`correctFailoverCandidates` is the patch object of
`extractCleanedFailoverCandidates`, keyed by agency path with value
`[corrected, original]`. -/
structure Info where
  zombies : List ZombieRec
  broken : List ZombieRec
  zombieCoordinators : List String
  correctFailoverCandidates : List (String × (List String × List String))
  noPlanDatabases : List NoPlanEntry
  noShardCollections : List NoShardFinding
  realLeaderMissing : List RealLeaderFinding
  leaderOnDeadServer : List DeadServerFinding
  followerOnDeadServer : List DeadServerFinding
  databasesDeadPrimaries : List DeadPrimaryRec
  emptyDatabases : List String
  missingCollections : List MissingCollsRec
  outOfSyncFollowers : List OutOfSyncFinding
  violatedDistShardLike : List String
  noInsyncFollower : List Trip
  unplannedLeader : List Trip
  noInsyncAndDeadLeader : List Trip
  brokenEdgeIndexes : List BrokenEdgeFinding
  failedInstances : List String
  callbacks : Option (List Callback)
deriving DecidableEq

/-- Lines 502-518 (`printZombies`): reports whether any zombie
collection exists. -/
def printZombies (info : Info) : Bool :=
  decide (0 < info.zombies.length)

/-- Lines 104-113 (`printZombieCoordinators`). -/
def printZombieCoordinators (info : Info) : Bool :=
  decide (0 < info.zombieCoordinators.length)

/-- Lines 115-124 (`printCleanedFailoverCandidates`):
`0 < Object.keys(info.correctFailoverCandidates).length`. -/
def printCleanedFailoverCandidates (info : Info) : Bool :=
  decide (0 < info.correctFailoverCandidates.length)

/-- Lines 553-569 (`printBroken`). -/
def printBroken (info : Info) : Bool :=
  decide (0 < info.broken.length)

/-- Lines 364-438 (`printCollectionIntegrity`): `infected` becomes
true when any of the five integrity collections is non-empty. -/
def printCollectionIntegrity (info : Info) : Bool :=
  decide (0 < info.noPlanDatabases.length) ||
  decide (0 < info.noShardCollections.length) ||
  decide (0 < info.realLeaderMissing.length) ||
  decide (0 < info.leaderOnDeadServer.length) ||
  decide (0 < info.followerOnDeadServer.length)

/-- Lines 589-605 (`printCurrentDatabasesDeadPrimaries`). -/
def printCurrentDatabasesDeadPrimaries (info : Info) : Bool :=
  decide (0 < info.databasesDeadPrimaries.length)

/-- Lines 631-647 (`printEmptyDatabases`). -/
def printEmptyDatabases (info : Info) : Bool :=
  decide (0 < info.emptyDatabases.length)

/-- Lines 687-703 (`printMissingCollections`). -/
def printMissingCollections (info : Info) : Bool :=
  decide (0 < info.missingCollections.length)

/-- Lines 786-813 (`printOutOfSyncFollowers`). -/
def printOutOfSyncFollowers (info : Info) : Bool :=
  decide (0 < info.outOfSyncFollowers.length)

/-- Lines 301-318 (`printDistributionGroups`): only
`noInsyncAndDeadLeader` is consulted; `violatedDistShardLike`,
`noInsyncFollower` and `unplannedLeader` are not printed and never
reach the exit signal. -/
def printDistributionGroups (info : Info) : Bool :=
  decide (0 < info.noInsyncAndDeadLeader.length)

/-- Lines 866-875 (`printBrokenEdgeIndexes`). -/
def printBrokenEdgeIndexes (info : Info) : Bool :=
  decide (0 < info.brokenEdgeIndexes.length)

/-- Lines 908-931: the run's `infected` flag, the disjunction of the
report functions' return values.  The four table printers of lines
911-918 (`printPrimaries`, `printDatabases`, `printCollections`,
`printPrimaryShards`) return `undefined` or `false` and cannot set the
flag, and `saveZombieCallbacks` (line 948) runs after the flag is
final. -/
def runInfected (info : Info) : Bool :=
  let infected := false
  let infected := printZombies info || infected
  let infected := printZombieCoordinators info || infected
  let infected := printCleanedFailoverCandidates info || infected
  let infected := printBroken info || infected
  let infected := printCollectionIntegrity info || infected
  let infected := printCurrentDatabasesDeadPrimaries info || infected
  let infected := printEmptyDatabases info || infected
  let infected := printMissingCollections info || infected
  let infected := printOutOfSyncFollowers info || infected
  let infected := printDistributionGroups info || infected
  let infected := printBrokenEdgeIndexes info || infected
  infected

/-- Lines 50-68 (`saveZombieCallbacks`): the zombie-callback finding
collection — pending callbacks whose URL prefix (scheme and authority)
matches a failed instance's endpoint.  Computed only when some
instance failed and a callback store was supplied. -/
def saveZombieCallbacksList (info : Info) : List Callback :=
  if 0 < info.failedInstances.length then
    match info.callbacks with
    | some cbs =>
      cbs.filter (fun cb =>
        info.failedInstances.contains (callbackUrlPrefix cb.url))
    | none => []
  else []

/-- Flag condition of the Out-of-Sync Follower Analyzer exactly as the
claim/spec words it (for comparison with `compareFollowers`): the
observed leader differs from the planned leader, or more than one
server is planned and some planned follower does not appear at any
position ≥ 1 of the observed list. -/
def specOutOfSyncFlag (plan current : List String) : Prop :=
  plan.head? ≠ current.head? ∨
    (1 < plan.length ∧ ∃ f ∈ plan.drop 1, f ∉ current.drop 1)

/-! Concrete snapshots used by the claim witnesses and
counterexamples. -/

/-- Group-leader collection of the C1 scenario: one shard `s1` on
server `A`. -/
def c1ColLeader : PlanCollection := ⟨some [("s1", ["A"])], none, false, []⟩

/-- Group member of the C1 scenario with the *same* planned layout,
distributing its shards like `c1`. -/
def c1ColFollower : PlanCollection :=
  ⟨some [("s1", ["A"])], some "c1", false, []⟩

/-- Plan of the C1 scenario. -/
def c1Plan : PlanCols := [("d", [("c1", c1ColLeader), ("c2", c1ColFollower)])]

/-- Current of the C1 scenario, mirroring the plan exactly. -/
def c1Cur : CurCols :=
  [("d", [("c1", [("s1", ⟨["A"], []⟩)]), ("c2", [("s1", ⟨["A"], []⟩)])])]

/-- Dump whose `Supervision` subtree is absent (Plan and Current are
present and well formed). -/
def c2NoSupDump : Dump := ⟨⟨some ⟨[], [], some []⟩, some ⟨[], some []⟩, none⟩⟩

/-- Dump whose `Supervision` subtree is present but whose `Health` map
is absent. -/
def c2NoHealthDump : Dump :=
  ⟨⟨some ⟨[], [], some []⟩, some ⟨[], some []⟩, some ⟨none⟩⟩⟩

/-- Group-leader collection of the C3 scenario: shard `s1` planned on
`[A, B]`. -/
def c3ColLeader : PlanCollection :=
  ⟨some [("s1", ["A", "B"])], none, false, []⟩

/-- Second group member of the C3 scenario: shard `s2` planned on
`[A, B]`, distributing like `c1`. -/
def c3ColMember : PlanCollection :=
  ⟨some [("s2", ["A", "B"])], some "c1", false, []⟩

/-- Plan of the C3 scenario. -/
def c3Plan : PlanCols := [("d", [("c1", c3ColLeader), ("c2", c3ColMember)])]

/-- Current of the C3 scenario: `s1` observed on the dead server `[D]`
(dead leader, no in-sync follower), `s2` observed on `[B]` (so `B` is
in sync for the sibling shard while `A` is in sync for none). -/
def c3Cur : CurCols :=
  [("d", [("c1", [("s1", ⟨["D"], []⟩)]), ("c2", [("s2", ⟨["B"], []⟩)])])]

/-- Live primaries of the C3 scenario: `A` and `B` (not `D`). -/
def c3Primaries : List String := ["A", "B"]

/-- Info record of the C4 scenario: every finding collection the
report phase reads is empty, but an instance failed and a pending
callback is registered against its endpoint. -/
def c4Info : Info :=
  ⟨[], [], [], [], [], [], [], [], [], [], [], [], [], [], [], [], [], [],
    ["http://h:8529"], some [⟨"http://h:8529/_api/x"⟩]⟩

/-- Plan of the C5 counterexample: one shard planned on `[A, A]` (the
planned follower equals the planned leader). -/
def c5cePlan : PlanCols :=
  [("d", [("c", ⟨some [("s1", ["A", "A"])], none, false, []⟩)])]

/-- Current of the C5 counterexample: observed `[A, C, A]` — the
planned follower `A` does appear at position 2 ≥ 1, yet its *first*
occurrence is the leader slot. -/
def c5ceCur : CurCols := [("d", [("c", [("s1", ⟨["A", "C", "A"], []⟩)])])]

/-- Collection of the C5 witness: shard `s1` planned on `[A, B]`. -/
def c5wCol : PlanCollection := ⟨some [("s1", ["A", "B"])], none, false, []⟩

/-- Plan of the C5 witness. -/
def c5wPlan : PlanCols := [("d", [("c", c5wCol)])]

/-- Current of the C5 witness: only the leader `A` is observed. -/
def c5wCur : CurCols := [("d", [("c", [("s1", ⟨["A"], []⟩)])])]

/-- Smart collection with an *absent* `shards` property. -/
def c6SmartCol : PlanCollection := ⟨none, none, true, []⟩

/-- Non-smart collection with a present-but-empty `shards` object. -/
def c6PlainEmptyCol : PlanCollection := ⟨some [], none, false, []⟩

/-- Health map of the C7 witness: only `A` is GOOD (`B` has no
entry). -/
def c7Health : List (String × HealthRecord) := [("A", ⟨"GOOD", "tcp://a:1"⟩)]

/-- Collection of the C7 witness: shard `s1` planned on `[A, B]`. -/
def c7Col : PlanCollection := ⟨some [("s1", ["A", "B"])], none, false, []⟩

/-- Plan collections of the C7 witness. -/
def c7Plan : PlanCols := [("d", [("c", c7Col)])]

/-- Arbitrary planned collection of the C8 scenario. -/
def c8Col : PlanCollection := ⟨some [("s1", ["A"])], none, false, []⟩

/-- Plan collections of the C8 scenario: database `d1` has collections
but no `Plan.Databases` entry. -/
def c8Plan : PlanCols := [("d1", [("c1", c8Col)])]

/-- Collection of the C9 witness, carrying the corrupted legacy edge
index (a single id-`"1"` record with both `_from` and `_to`) plus an
unrelated index that must be preserved. -/
def c9BadCol : PlanCollection :=
  ⟨some [("s1", ["A"])], none, false,
    [⟨"1", "edge", "edge", ["_from", "_to"], false, false⟩,
     ⟨"9", "hash", "h", ["x"], true, false⟩]⟩

/-- Plan of the C10 witness: shard `s1` planned on `[A, B]`. -/
def c10Plan : PlanCols :=
  [("d", [("c", ⟨some [("s1", ["A", "B"])], none, false, []⟩)])]

/-- Current of the C10 witness: `s1` observed on the lone server `[D]`,
which is not a live primary. -/
def c10Cur : CurCols := [("d", [("c", [("s1", ⟨["D"], []⟩)])])]

/-! Theorems settling the claims. -/

/-- C1: the claim says that a distribution group whose members all have
identical sorted planned shard layouts contributes nothing to
`violatedDistShardLike`.  On the code this fails: the flagging loop
compares the stored records with `!==`, a reference comparison between
distinct freshly-allocated objects, so any group with a second member
whose first member stored a non-empty plan list is flagged.  Here the
two members of group `c1` store literally identical plan lists (first
conjunct), yet `c1` is flagged (second conjunct). -/
theorem c1_identical_layouts_still_flagged :
    (mapGet (extractDistributionGroups c1Plan c1Cur []).shardGroups "c1").map
        (·.plan) =
      some [("c1", [⟨"s1", ["A"]⟩]), ("c2", [⟨"s1", ["A"]⟩])] ∧
    (extractDistributionGroups c1Plan c1Cur []).violatedDistShardLike =
      ["c1"] := by
  exact ⟨rfl, rfl⟩

/-- C2 counterexample: a snapshot whose `Supervision` subtree is absent
makes `extractFailed` (and `zombieCoordinators`) throw instead of
treating the section as empty, so not every analyzer still produces
its finding collection. -/
theorem c2_missing_supervision_throws :
    extractFailed c2NoSupDump = none ∧
    zombieCoordinators c2NoSupDump = none := by
  exact ⟨rfl, rfl⟩

/-- C2 (amended): an absent *top-level* section is not tolerated — when
`Supervision` is absent, `extractFailed` and `zombieCoordinators`
throw; only a missing *inner* entry (here: `Supervision` present but
`Health` absent) is treated as empty. -/
theorem c2_absent_sections_throw :
    (∀ d : Dump, d.arango.Supervision = none →
      extractFailed d = none ∧ zombieCoordinators d = none) ∧
    (∀ d : Dump, d.arango.Supervision = some ⟨none⟩ →
      extractFailed d = some []) := by
  constructor
  · intro d h
    refine ⟨?_, ?_⟩
    · simp [extractFailed, h]
    · cases hp : d.arango.Plan <;> cases hc : d.arango.Current <;>
        simp [zombieCoordinators, h, hp, hc]
  · intro d h
    simp [extractFailed, h, Option.getD]

/-- C2 witness: the amended statement applied to the concrete dumps
`c2NoSupDump` (absent Supervision) and `c2NoHealthDump` (present
Supervision, absent Health). -/
theorem c2_absent_sections_throw_witness :
    (extractFailed c2NoSupDump = none ∧
      zombieCoordinators c2NoSupDump = none) ∧
    extractFailed c2NoHealthDump = some [] :=
  ⟨c2_absent_sections_throw.1 c2NoSupDump rfl,
   c2_absent_sections_throw.2 c2NoHealthDump rfl⟩

/-- C3: the claim (and the source's own printed line "first has most in
sync") says the failover candidates are ranked descending by in-sync
sibling count.  On the code this fails: the comparator
`(l, r) => l[1].length > r[1].length` returns a boolean, which sorts
coerce to 0 or 1 and never to a negative number, so the order stays the
planned-list insertion order.  In this scenario the dead-leader case is
`{cid: c1, shard: s1, search: c1}` (first conjunct) and the emitted
ranking lists `A` (in sync for 0 sibling shards) before `B` (in sync
for 1), the opposite of descending order (second conjunct). -/
theorem c3_ranking_not_descending :
    (extractDistributionGroups c3Plan c3Cur c3Primaries).noInsyncAndDeadLeader =
      [⟨"c1", "s1", "c1"⟩] ∧
    (mapGet (extractDistributionGroups c3Plan c3Cur c3Primaries).shardGroups
        "c1").bind
        (fun g => failoverCandidateRanking c3Primaries g "c1" "s1") =
      some [("A", []), ("B", ["s2"])] := by
  exact ⟨rfl, rfl⟩

/-- C8: the claim says exactly one finding record is appended per
database missing from `Plan.Databases`.  On the code this fails: line
185 is the two-argument `info.noPlanDatabases.push(db, collections)`,
which appends *two* elements — the database name and the whole
collections object. -/
theorem c8_push_appends_two_elements :
    (extractCollectionIntegrity c8Plan [] []).noPlanDatabases =
      [Sum.inl "d1", Sum.inr [("c1", c8Col)]] ∧
    ((extractCollectionIntegrity c8Plan [] []).noPlanDatabases).length = 2 := by
  exact ⟨rfl, rfl⟩

/-- C4 counterexample: a run in which every finding collection the
report phase reads is empty but the zombie-callback analyzer produces
a non-empty collection — `infected` is nevertheless `false`, refuting
"if the zombie-callback analyzer produces a non-empty finding
collection, infected is true". -/
theorem c4_zombie_callbacks_not_in_infected :
    saveZombieCallbacksList c4Info = [⟨"http://h:8529/_api/x"⟩] ∧
    runInfected c4Info = false := by
  exact ⟨rfl, rfl⟩

/-- C4 (amended): `infected` is true iff one of the fifteen finding
collections consulted by the report functions of lines 920-930 is
non-empty.  The zombie-callback collection is not among them (line 948
runs after the flag is final), and neither are `violatedDistShardLike`,
`noInsyncFollower` and `unplannedLeader` (the distribution-group
report of lines 301-318 only consults `noInsyncAndDeadLeader`). -/
theorem c4_infected_iff (info : Info) :
    runInfected info = true ↔
      (info.zombies ≠ [] ∨ info.zombieCoordinators ≠ [] ∨
       info.correctFailoverCandidates ≠ [] ∨ info.broken ≠ [] ∨
       info.noPlanDatabases ≠ [] ∨ info.noShardCollections ≠ [] ∨
       info.realLeaderMissing ≠ [] ∨ info.leaderOnDeadServer ≠ [] ∨
       info.followerOnDeadServer ≠ [] ∨
       info.databasesDeadPrimaries ≠ [] ∨ info.emptyDatabases ≠ [] ∨
       info.missingCollections ≠ [] ∨ info.outOfSyncFollowers ≠ [] ∨
       info.noInsyncAndDeadLeader ≠ [] ∨ info.brokenEdgeIndexes ≠ []) := by
  simp only [runInfected, printZombies, printZombieCoordinators,
    printCleanedFailoverCandidates, printBroken, printCollectionIntegrity,
    printCurrentDatabasesDeadPrimaries, printEmptyDatabases,
    printMissingCollections, printOutOfSyncFollowers,
    printDistributionGroups, printBrokenEdgeIndexes,
    Bool.or_eq_true, decide_eq_true_eq, List.length_pos, Bool.or_false]
  tauto

/-- Replacement indexes synthesized by the Broken Edge-Index Analyzer
never contain the corrupted legacy shape: every id-`"1"` record in the
output has the single field `_from`, and every other record kept has an
id other than `"1"`. -/
theorem brokenEdgeCheck_goodEdgeIndexes (idxs : List IndexRec) :
    brokenEdgeCheck (goodEdgeIndexes idxs) = false := by
  induction idxs with
  | nil => rfl
  | cons ix rest ih =>
    simp only [goodEdgeIndexes, List.flatMap_cons, brokenEdgeCheck,
      List.any_append] at ih ⊢
    rw [ih]
    by_cases h1 : ix.id = "1"
    · simp [h1, isBrokenEdgeIndex]
    · by_cases h2 : ix.id = "2"
      · simp [h1, h2]
      · simp [h1, h2, isBrokenEdgeIndex]

/-- C9: edge-index correction is a fixed point — for every collection
flagged by the Broken Edge-Index Analyzer, replacing its index list
with the synthesized good list and re-running the analyzer on the
corrected collection yields no finding. -/
theorem c9_good_indexes_fixed_point (db cid : String) (col : PlanCollection)
    (_flagged : brokenEdgeCheck col.indexes = true) :
    extractBrokenEdgeIndexes
      [(db, [(cid, { col with indexes := goodEdgeIndexes col.indexes })])] =
      [] := by
  simp only [extractBrokenEdgeIndexes, List.flatMap_cons, List.flatMap_nil,
    List.append_nil]
  split
  · rfl
  · rw [brokenEdgeCheck_goodEdgeIndexes]
    rfl

/-- C9 witness: the concrete corrupted collection `c9BadCol` is flagged
and its corrected version passes the re-run. -/
theorem c9_good_indexes_fixed_point_witness :
    brokenEdgeCheck c9BadCol.indexes = true ∧
    extractBrokenEdgeIndexes
      [("d", [("c", { c9BadCol with
        indexes := goodEdgeIndexes c9BadCol.indexes })])] = [] :=
  ⟨by decide, c9_good_indexes_fixed_point "d" "c" c9BadCol (by decide)⟩

/-- Folding a step that preserves a property preserves it. -/
theorem foldl_preserves {α : Type u} {β : Type v} (f : α → β → α)
    (P : α → Prop) (hf : ∀ a b, P a → P (f a b)) :
    ∀ (l : List β) (a : α), P a → P (l.foldl f a) := by
  intro l
  induction l with
  | nil => intro a ha; exact ha
  | cons b rest ih => intro a ha; exact ih _ (hf a b ha)

/-- The per-shard loop of the Distribution Group Analyzer keeps
`noInsyncAndDeadLeader` inside `noInsyncFollower`: the dead-leader add
of line 269 happens only directly after the no-in-sync add of
line 267, with the same freshly built triple. -/
theorem shardStep_dead_sub_insync (primaries : List String)
    (curCols : CurCols) (db cid search : String) (acc : ShardAcc)
    (sv : String × List String)
    (h : ∀ t ∈ acc.noInsyncAndDeadLeader, t ∈ acc.noInsyncFollower) :
    ∀ t ∈ (shardStep primaries curCols db cid search acc sv).noInsyncAndDeadLeader,
      t ∈ (shardStep primaries curCols db cid search acc sv).noInsyncFollower := by
  unfold shardStep
  cases lookupCur curCols db cid sv.1 with
  | none => exact h
  | some curServers =>
    dsimp only
    split_ifs <;> intro t ht <;>
      simp only [List.mem_append, List.mem_singleton] at ht ⊢ <;>
      first
        | exact h t ht
        | exact Or.inl (h t ht)
        | (rcases ht with ht | ht
           · exact Or.inl (h t ht)
           · exact Or.inr ht)

/-- The per-collection step of the Distribution Group Analyzer keeps
`noInsyncAndDeadLeader` inside `noInsyncFollower`. -/
theorem distColStep_dead_sub_insync (primaries : List String)
    (curCols : CurCols) (db : String) (st : DistResult)
    (cc : String × PlanCollection)
    (h : ∀ t ∈ st.noInsyncAndDeadLeader, t ∈ st.noInsyncFollower) :
    ∀ t ∈ (distColStep primaries curCols db st cc).noInsyncAndDeadLeader,
      t ∈ (distColStep primaries curCols db st cc).noInsyncFollower := by
  unfold distColStep
  dsimp only
  cases cc.2.shards with
  | none => exact h
  | some shardsMap =>
    dsimp only
    split
    · exact h
    · dsimp only
      exact foldl_preserves _
        (fun a : ShardAcc => ∀ t ∈ a.noInsyncAndDeadLeader, t ∈ a.noInsyncFollower)
        (fun a b ha => shardStep_dead_sub_insync primaries curCols db cc.1 _ a b ha)
        shardsMap
        ⟨[], [], st.unplannedLeader, st.noInsyncFollower, st.noInsyncAndDeadLeader⟩
        h

/-- C10: every `{cid, shard, search}` triple recorded in
`noInsyncAndDeadLeader` is also recorded in `noInsyncFollower` — a
shard is classified as "dead leader with no in-sync follower" only
after being classified as "no in-sync follower". -/
theorem c10_dead_leader_sub_insync (planCols : PlanCols) (curCols : CurCols)
    (primaries : List String) :
    ∀ t ∈ (extractDistributionGroups planCols curCols primaries).noInsyncAndDeadLeader,
      t ∈ (extractDistributionGroups planCols curCols primaries).noInsyncFollower := by
  unfold extractDistributionGroups
  refine foldl_preserves _
    (fun st : DistResult => ∀ t ∈ st.noInsyncAndDeadLeader, t ∈ st.noInsyncFollower)
    ?_ planCols ⟨[], [], [], [], []⟩ ?_
  · intro st dc hst
    exact foldl_preserves _
      (fun st' : DistResult => ∀ t ∈ st'.noInsyncAndDeadLeader, t ∈ st'.noInsyncFollower)
      (fun a b ha => distColStep_dead_sub_insync primaries curCols dc.1 a b ha)
      dc.2 st hst
  · intro t ht
    cases ht

/-- C10 witness: in the concrete snapshot `c10Plan`/`c10Cur` the triple
`{c, s1, c}` lands in `noInsyncAndDeadLeader`, so by the invariant it
is also in `noInsyncFollower`. -/
theorem c10_dead_leader_sub_insync_witness :
    (⟨"c", "s1", "c"⟩ : Trip) ∈
      (extractDistributionGroups c10Plan c10Cur []).noInsyncFollower :=
  c10_dead_leader_sub_insync c10Plan c10Cur [] ⟨"c", "s1", "c"⟩ (by decide)

/-- Characterization of `compareFollowers` returning `false`: the heads
differ, or more than one server is planned and some planned follower's
first occurrence in the observed list is missing or at index 0. -/
theorem compareFollowers_false_iff (plan current : List String) :
    compareFollowers plan current = false ↔
      (plan.head? ≠ current.head? ∨
        (1 < plan.length ∧ ∃ f ∈ plan.drop 1,
          followerFirstOccurrenceBad current f = true)) := by
  unfold compareFollowers
  by_cases h : plan.head? = current.head?
  · match plan with
    | [] => simp [h]
    | [a] => simp [h]
    | a :: b :: rest =>
      have hlen : ((a :: b :: rest).length == 1) = false := by
        simp
      rw [if_neg (by simp [h]), hlen]
      simp only [Bool.false_eq_true, if_false, List.all_eq_false,
        Bool.not_eq_true, Bool.not_eq_false]
      constructor
      · rintro ⟨f, hf, hbad⟩
        exact Or.inr ⟨by simp, ⟨f, hf, by simpa using hbad⟩⟩
      · rintro (hne | ⟨_, f, hf, hbad⟩)
        · exact absurd h hne
        · exact ⟨f, hf, by simpa using hbad⟩
  · rw [if_pos h]
    simp [h]

/-- C5 counterexample: for the planned list `[A, A]` and the observed
list `[A, C, A]` the analyzer flags the shard (`compareFollowers` is
`false`, first conjunct, and the finding is emitted, third conjunct),
yet the claim's condition does not hold — the leaders match and the
planned follower `A` does appear at position 2 ≥ 1 of the observed
list (second conjunct). -/
theorem c5_first_occurrence_counterexample :
    compareFollowers ["A", "A"] ["A", "C", "A"] = false ∧
    ¬ specOutOfSyncFlag ["A", "A"] ["A", "C", "A"] ∧
    extractOutOfSyncFollowers c5cePlan c5ceCur =
      [⟨"d", "c", "s1", ["A", "A"], ["A", "C", "A"]⟩] := by
  refine ⟨rfl, ?_, rfl⟩
  simp only [specOutOfSyncFlag]
  decide

/-- C5 (amended): for every shard with a Current entry, the analyzer
flags it iff the observed leader differs from the planned one, or more
than one server is planned and some planned follower's *first*
occurrence in the observed list is missing or in the leader slot
(`current.indexOf(plan[i]) < 1`) — rather than the follower not
appearing at any position ≥ 1.  A single-entry planned list is still
never flagged once the leader matches. -/
theorem c5_flag_iff (planCols : PlanCols) (curCols : CurCols)
    (db : String) (cols : List (String × PlanCollection)) (cid : String)
    (col : PlanCollection) (m : List (String × List String))
    (shard : String) (servers current : List String)
    (h1 : (db, cols) ∈ planCols) (h2 : hasKey curCols db = true)
    (h3 : (cid, col) ∈ cols) (h4 : col.shards = some m)
    (h5 : (shard, servers) ∈ m)
    (h6 : lookupCur curCols db cid shard = some current) :
    ((⟨db, cid, shard, servers, current⟩ : OutOfSyncFinding) ∈
        extractOutOfSyncFollowers planCols curCols) ↔
      (servers.head? ≠ current.head? ∨
        (1 < servers.length ∧ ∃ f ∈ servers.drop 1,
          followerFirstOccurrenceBad current f = true)) := by
  rw [← compareFollowers_false_iff]
  unfold extractOutOfSyncFollowers
  constructor
  · intro hmem
    rcases List.mem_flatMap.1 hmem with ⟨dc, _, hmem2⟩
    by_cases hk : hasKey curCols dc.1 = true
    · rw [if_pos hk] at hmem2
      rcases List.mem_flatMap.1 hmem2 with ⟨cc, _, hmem3⟩
      cases hs : cc.2.shards with
      | none => simp [hs] at hmem3
      | some mm =>
        simp only [hs] at hmem3
        by_cases he : mm.isEmpty = true
        · simp [he] at hmem3
        · rw [if_neg he] at hmem3
          rcases List.mem_flatMap.1 hmem3 with ⟨sv, _, hmem4⟩
          cases hl : lookupCur curCols dc.1 cc.1 sv.1 with
          | none => simp [hl] at hmem4
          | some cur2 =>
            simp only [hl] at hmem4
            by_cases hc : compareFollowers sv.2 cur2 = true
            · simp [hc] at hmem4
            · rw [if_neg hc] at hmem4
              have h := List.mem_singleton.1 hmem4
              injection h with e1 e2 e3 e4 e5
              rw [e4, e5]
              simpa using hc
    · rw [if_neg hk] at hmem2; cases hmem2
  · intro hflag
    refine List.mem_flatMap.2 ⟨(db, cols), h1, ?_⟩
    rw [if_pos h2]
    refine List.mem_flatMap.2 ⟨(cid, col), h3, ?_⟩
    simp only [h4]
    have hne : m.isEmpty = false := by
      cases m with
      | nil => cases h5
      | cons a l => rfl
    rw [hne]
    simp only [Bool.false_eq_true, if_false]
    refine List.mem_flatMap.2 ⟨(shard, servers), h5, ?_⟩
    simp only [h6]
    rw [if_neg (by simp [hflag])]
    exact List.mem_singleton.2 rfl

/-- C5 witness: in the concrete snapshot `c5wPlan`/`c5wCur` (planned
`[A, B]`, observed `[A]`), the amended equivalence is obtained from
`c5_flag_iff`; the right-hand side holds because follower `B` is
absent, so the finding is a member. -/
theorem c5_flag_iff_witness :
    ((⟨"d", "c", "s1", ["A", "B"], ["A"]⟩ : OutOfSyncFinding) ∈
        extractOutOfSyncFollowers c5wPlan c5wCur) ↔
      ((["A", "B"] : List String).head? ≠ (["A"] : List String).head? ∨
        (1 < (["A", "B"] : List String).length ∧
          ∃ f ∈ (["A", "B"] : List String).drop 1,
            followerFirstOccurrenceBad ["A"] f = true)) :=
  c5_flag_iff c5wPlan c5wCur "d" [("c", c5wCol)] "c" c5wCol
    [("s1", ["A", "B"])] "s1" ["A", "B"] ["A"]
    (by decide) (by decide) (by decide) rfl (by decide) rfl

/-- Characterization of the line-190 skip/flag condition: it holds iff
`shards` is absent (regardless of smartness), or present but empty for
a non-smart collection. -/
theorem noShardSkip_iff (col : PlanCollection) :
    noShardSkip col = true ↔
      (col.shards = none ∨
        (col.shards = some [] ∧ col.isSmart = false)) := by
  unfold noShardSkip
  cases hs : col.shards with
  | none => simp
  | some mm =>
    cases mm with
    | nil => cases hsm : col.isSmart <;> simp [hsm]
    | cons a l => simp

/-- C6 counterexample: a *smart* collection whose `shards` property is
absent is flagged `noShardCollections` (the `!shards` disjunct of line
190 fires before smartness is consulted), refuting "a smart collection
is never flagged noShardCollections". -/
theorem c6_smart_absent_shards_flagged :
    (extractCollectionIntegrity [("d", [("c", c6SmartCol)])] ["d"]
        []).noShardCollections =
      [⟨"d", "c", c6SmartCol⟩] ∧
    c6SmartCol.isSmart = true := by
  exact ⟨rfl, rfl⟩

/-- C6 (amended): for every planned collection whose database is in
`Plan.Databases`, a `noShardCollections` finding is recorded iff the
`shards` map is absent — even for a smart collection — or present but
empty for a non-smart collection; only a smart collection with a
present-but-empty shards map escapes flagging. -/
theorem c6_noShard_iff (planCols : PlanCols) (planDBs primaries : List String)
    (db : String) (cols : List (String × PlanCollection)) (cid : String)
    (col : PlanCollection)
    (h1 : (db, cols) ∈ planCols) (h2 : planDBs.contains db = true)
    (h3 : (cid, col) ∈ cols) :
    ((⟨db, cid, col⟩ : NoShardFinding) ∈
        (extractCollectionIntegrity planCols planDBs
          primaries).noShardCollections) ↔
      (col.shards = none ∨
        (col.shards = some [] ∧ col.isSmart = false)) := by
  rw [← noShardSkip_iff]
  show (⟨db, cid, col⟩ : NoShardFinding) ∈
      planCols.flatMap (fun dc =>
        if planDBs.contains dc.1 then
          dc.2.flatMap (fun cc =>
            if noShardSkip cc.2 then [⟨dc.1, cc.1, cc.2⟩] else [])
        else []) ↔ noShardSkip col = true
  constructor
  · intro hmem
    rcases List.mem_flatMap.1 hmem with ⟨dc, _, hmem2⟩
    by_cases hk : planDBs.contains dc.1 = true
    · rw [if_pos hk] at hmem2
      rcases List.mem_flatMap.1 hmem2 with ⟨cc, _, hmem3⟩
      by_cases hskip : noShardSkip cc.2 = true
      · rw [if_pos hskip] at hmem3
        have h := List.mem_singleton.1 hmem3
        injection h with e1 e2 e3
        rw [e3]
        exact hskip
      · simp [hskip] at hmem3
    · rw [if_neg hk] at hmem2; cases hmem2
  · intro hskip
    refine List.mem_flatMap.2 ⟨(db, cols), h1, ?_⟩
    rw [if_pos h2]
    refine List.mem_flatMap.2 ⟨(cid, col), h3, ?_⟩
    rw [if_pos hskip]
    exact List.mem_singleton.2 rfl

/-- C6 witness: the non-smart collection `c6PlainEmptyCol` with a
present-but-empty shards map is flagged, by the amended equivalence
applied at a concrete snapshot. -/
theorem c6_noShard_iff_witness :
    (⟨"d", "c", c6PlainEmptyCol⟩ : NoShardFinding) ∈
      (extractCollectionIntegrity [("d", [("c", c6PlainEmptyCol)])] ["d"]
        []).noShardCollections :=
  (c6_noShard_iff [("d", [("c", c6PlainEmptyCol)])] ["d"] [] "d"
      [("c", c6PlainEmptyCol)] "c" c6PlainEmptyCol
      (by decide) (by decide) (by decide)).mpr
    (Or.inr ⟨rfl, rfl⟩)

/-- Position `i` of a list is enumerated by `enum`. -/
theorem mem_enum_get (l : List α) (i : Nat) (h : i < l.length) :
    (i, l.get ⟨i, h⟩) ∈ l.enum := by
  rw [List.mem_enum_iff_getElem?]
  simp [List.getElem?_eq_getElem h]

/-- The liveness oracle contains a node id iff `Supervision.Health` has
an entry for it with Status GOOD. -/
theorem extractPrimaries_contains_iff (health : List (String × HealthRecord))
    (s : String) :
    (extractPrimaries health).contains s = true ↔
      ∃ rec, (s, rec) ∈ health ∧ rec.Status = "GOOD" := by
  unfold extractPrimaries
  rw [List.elem_iff]
  constructor
  · intro hmem
    rcases List.mem_map.1 hmem with ⟨p, hp, rfl⟩
    rcases List.mem_filter.1 hp with ⟨hmem2, hst⟩
    exact ⟨p.2, hmem2, by simpa using hst⟩
  · rintro ⟨rec, hmem, hst⟩
    exact List.mem_map.2
      ⟨(s, rec), List.mem_filter.2 ⟨hmem, by simpa using hst⟩, rfl⟩

/-- A dead node in the leader slot produces the leader finding. -/
theorem mem_shardLeaderDead_of_dead (primaries : List String)
    (db name shard : String) (servers : List String) (h : 0 < servers.length)
    (hd : primaries.contains (servers.get ⟨0, h⟩) = false) :
    (⟨db, name, shard, servers.get ⟨0, h⟩, servers⟩ : DeadServerFinding) ∈
      shardLeaderDead primaries db name shard servers := by
  unfold shardLeaderDead
  refine List.mem_map.2 ⟨(0, servers.get ⟨0, h⟩), ?_, rfl⟩
  refine List.mem_filter.2 ⟨mem_enum_get servers 0 h, ?_⟩
  have hd2 : servers[0] ∉ primaries := by
    intro hmem
    have hc : primaries.contains (servers.get ⟨0, h⟩) = true :=
      List.elem_iff.2 hmem
    rw [hd] at hc
    cases hc
  simp [hd2]

/-- A dead node in a follower slot produces the follower finding. -/
theorem mem_shardFollowerDead_of_dead (primaries : List String)
    (db name shard : String) (servers : List String) (i : Nat)
    (h : i < servers.length) (hi : i ≠ 0)
    (hd : primaries.contains (servers.get ⟨i, h⟩) = false) :
    (⟨db, name, shard, servers.get ⟨i, h⟩, servers⟩ : DeadServerFinding) ∈
      shardFollowerDead primaries db name shard servers := by
  unfold shardFollowerDead
  refine List.mem_map.2 ⟨(i, servers.get ⟨i, h⟩), ?_, rfl⟩
  refine List.mem_filter.2 ⟨mem_enum_get servers i h, ?_⟩
  have hd2 : servers[i] ∉ primaries := by
    intro hmem
    have hc : primaries.contains (servers.get ⟨i, h⟩) = true :=
      List.elem_iff.2 hmem
    rw [hd] at hc
    cases hc
  simp [hd2, hi]

/-- Every finding a shard contributes to `leaderOnDeadServer` carries
that shard's identifiers. -/
theorem shardLeaderDead_fields (primaries : List String)
    (db name shard : String) (servers : List String) (f : DeadServerFinding)
    (hf : f ∈ shardLeaderDead primaries db name shard servers) :
    f.db = db ∧ f.name = name ∧ f.shard = shard := by
  unfold shardLeaderDead at hf
  rcases List.mem_map.1 hf with ⟨p, _, rfl⟩
  exact ⟨rfl, rfl, rfl⟩

/-- A collection whose shard entry is inhabited escapes the
`noShardCollections` skip. -/
theorem noShardSkip_false_of_mem (col : PlanCollection)
    (m : List (String × List String)) (sv : String × List String)
    (h4 : col.shards = some m) (h5 : sv ∈ m) :
    noShardSkip col = false := by
  unfold noShardSkip
  rw [h4]
  cases m with
  | nil => cases h5
  | cons a l => simp

/-- Every finding a collection contributes to `leaderOnDeadServer`
carries that collection's database and id. -/
theorem colLeaderDead_fields (primaries : List String) (db : String)
    (cc : String × PlanCollection) (f : DeadServerFinding)
    (hf : f ∈ colLeaderDead primaries db cc) :
    f.db = db ∧ f.name = cc.1 := by
  unfold colLeaderDead at hf
  by_cases hs : noShardSkip cc.2 = true
  · simp [hs] at hf
  · rw [if_neg hs] at hf
    rcases List.mem_flatMap.1 hf with ⟨sv, _, hf2⟩
    have h := shardLeaderDead_fields _ _ _ _ _ _ hf2
    exact ⟨h.1, h.2.1⟩

/-- Every finding a database contributes to `leaderOnDeadServer`
carries that database's name. -/
theorem dbLeaderDead_fields (primaries planDBs : List String)
    (dc : String × List (String × PlanCollection)) (f : DeadServerFinding)
    (hf : f ∈ dbLeaderDead primaries planDBs dc) : f.db = dc.1 := by
  unfold dbLeaderDead at hf
  by_cases hk : planDBs.contains dc.1 = true
  · rw [if_pos hk] at hf
    rcases List.mem_flatMap.1 hf with ⟨cc, _, hf2⟩
    exact (colLeaderDead_fields _ _ _ _ hf2).1
  · rw [if_neg hk] at hf
    cases hf

/-- Positions enumerated from `n + 1` never pass an index-0 filter. -/
theorem enumFrom_succ_filter_zero (q : Nat × α → Bool) :
    ∀ (n : Nat) (l : List α),
      (List.enumFrom (n + 1) l).filter (fun p => p.1 == 0 && q p) = [] := by
  intro n l
  induction l generalizing n with
  | nil => rfl
  | cons a as ih =>
    rw [List.enumFrom_cons, List.filter_cons]
    have hc : (((n + 1 : Nat) == 0) && q (n + 1, a)) = false := by simp
    rw [hc]
    simp only [Bool.false_eq_true, if_false]
    exact ih (n + 1)

/-- A shard contributes at most one finding to `leaderOnDeadServer`
(only position 0 is a leader slot). -/
theorem shardLeaderDead_length_le_one (primaries : List String)
    (db name shard : String) (servers : List String) :
    (shardLeaderDead primaries db name shard servers).length ≤ 1 := by
  unfold shardLeaderDead
  rw [List.length_map]
  cases servers with
  | nil => simp
  | cons a as =>
    rw [List.enum_cons, List.filter_cons, enumFrom_succ_filter_zero _ 0 as]
    split <;> simp

/-- Over a shard map with distinct shard names, at most one
`leaderOnDeadServer` finding matches a given shard name. -/
theorem shards_leader_countP_le_one (primaries : List String)
    (db name shard : String) :
    ∀ m : List (String × List String), (m.map Prod.fst).Nodup →
      ((m.flatMap (fun sv =>
          shardLeaderDead primaries db name sv.1 sv.2)).countP
        (fun f => f.db == db && f.name == name && f.shard == shard)) ≤ 1 := by
  intro m
  induction m with
  | nil => intro _; simp
  | cons sv rest ih =>
    intro hnd
    rw [List.flatMap_cons, List.countP_append]
    rw [List.map_cons, List.nodup_cons] at hnd
    by_cases hsh : sv.1 = shard
    · have hrest : ((rest.flatMap (fun sv =>
            shardLeaderDead primaries db name sv.1 sv.2)).countP
          (fun f => f.db == db && f.name == name && f.shard == shard)) = 0 := by
        rw [List.countP_eq_zero]
        intro f hf
        rcases List.mem_flatMap.1 hf with ⟨sv2, hsv2, hf2⟩
        have hfields := shardLeaderDead_fields _ _ _ _ _ _ hf2
        have hne : sv2.1 ≠ shard := by
          intro he
          exact hnd.1 (by
            rw [hsh, ← he]
            exact List.mem_map.2 ⟨sv2, hsv2, rfl⟩)
        simp [hfields.2.2, hne]
      have hhead := le_trans
        (List.countP_le_length
          (fun f => f.db == db && f.name == name && f.shard == shard))
        (shardLeaderDead_length_le_one primaries db name sv.1 sv.2)
      omega
    · have hhead : ((shardLeaderDead primaries db name sv.1 sv.2).countP
          (fun f => f.db == db && f.name == name && f.shard == shard)) = 0 := by
        rw [List.countP_eq_zero]
        intro f hf
        have hfields := shardLeaderDead_fields _ _ _ _ _ _ hf
        simp [hfields.2.2, hsh]
      rw [hhead]
      simpa using ih hnd.2

/-- Over a collection map with distinct collection ids, at most one
`leaderOnDeadServer` finding matches a given collection id and shard
name. -/
theorem cols_leader_countP_le_one (primaries : List String)
    (db cid shard : String) (col : PlanCollection)
    (m : List (String × List String))
    (h4 : col.shards = some m) (hndm : (m.map Prod.fst).Nodup) :
    ∀ cols : List (String × PlanCollection),
      (cols.map Prod.fst).Nodup → (cid, col) ∈ cols →
      ((cols.flatMap (colLeaderDead primaries db)).countP
        (fun f => f.db == db && f.name == cid && f.shard == shard)) ≤ 1 := by
  intro cols
  induction cols with
  | nil => intro _ h3; cases h3
  | cons cc rest ih =>
    intro hnd h3
    rw [List.flatMap_cons, List.countP_append]
    rw [List.map_cons, List.nodup_cons] at hnd
    rcases List.mem_cons.1 h3 with heq | hrest
    · cases heq.symm
      have hrest0 : ((rest.flatMap (colLeaderDead primaries db)).countP
          (fun f => f.db == db && f.name == cid && f.shard == shard)) = 0 := by
        rw [List.countP_eq_zero]
        intro f hf
        rcases List.mem_flatMap.1 hf with ⟨cc2, hcc2, hf2⟩
        have hfields := colLeaderDead_fields _ _ _ _ hf2
        have hne : cc2.1 ≠ cid := by
          intro he
          exact hnd.1 (by
            rw [← he]
            exact List.mem_map.2 ⟨cc2, hcc2, rfl⟩)
        simp [hfields.2, hne]
      have hhead : (((colLeaderDead primaries db (cid, col))).countP
          (fun f => f.db == db && f.name == cid && f.shard == shard)) ≤ 1 := by
        unfold colLeaderDead
        by_cases hskip : noShardSkip col = true
        · simp [hskip]
        · rw [if_neg hskip]
          simp only [h4, Option.getD_some]
          exact shards_leader_countP_le_one primaries db cid shard m hndm
      omega
    · have hhead0 : ((colLeaderDead primaries db cc).countP
          (fun f => f.db == db && f.name == cid && f.shard == shard)) = 0 := by
        rw [List.countP_eq_zero]
        intro f hf
        have hfields := colLeaderDead_fields _ _ _ _ hf
        have hne : cc.1 ≠ cid := by
          intro he
          exact hnd.1 (by
            rw [he]
            exact List.mem_map.2 ⟨(cid, col), hrest, rfl⟩)
        simp [hfields.2, hne]
      rw [hhead0]
      simpa using ih hnd.2 hrest

/-- Over a plan with distinct database names, at most one
`leaderOnDeadServer` finding matches a given database, collection id
and shard name. -/
theorem plan_leader_countP_le_one (primaries planDBs : List String)
    (db cid shard : String) (cols : List (String × PlanCollection))
    (col : PlanCollection) (m : List (String × List String))
    (h3 : (cid, col) ∈ cols) (h4 : col.shards = some m)
    (hnd2 : (cols.map Prod.fst).Nodup) (hndm : (m.map Prod.fst).Nodup) :
    ∀ planCols : PlanCols,
      (planCols.map Prod.fst).Nodup → (db, cols) ∈ planCols →
      ((planCols.flatMap (dbLeaderDead primaries planDBs)).countP
        (fun f => f.db == db && f.name == cid && f.shard == shard)) ≤ 1 := by
  intro planCols
  induction planCols with
  | nil => intro _ h1; cases h1
  | cons dc rest ih =>
    intro hnd h1
    rw [List.flatMap_cons, List.countP_append]
    rw [List.map_cons, List.nodup_cons] at hnd
    rcases List.mem_cons.1 h1 with heq | hrest
    · cases heq.symm
      have hrest0 : ((rest.flatMap (dbLeaderDead primaries planDBs)).countP
          (fun f => f.db == db && f.name == cid && f.shard == shard)) = 0 := by
        rw [List.countP_eq_zero]
        intro f hf
        rcases List.mem_flatMap.1 hf with ⟨dc2, hdc2, hf2⟩
        have hfield := dbLeaderDead_fields _ _ _ _ hf2
        have hne : dc2.1 ≠ db := by
          intro he
          exact hnd.1 (by
            rw [← he]
            exact List.mem_map.2 ⟨dc2, hdc2, rfl⟩)
        simp [hfield, hne]
      have hhead : ((dbLeaderDead primaries planDBs (db, cols)).countP
          (fun f => f.db == db && f.name == cid && f.shard == shard)) ≤ 1 := by
        unfold dbLeaderDead
        by_cases hk : planDBs.contains db = true
        · rw [if_pos hk]
          exact cols_leader_countP_le_one primaries db cid shard col m h4 hndm
            cols hnd2 h3
        · rw [if_neg hk]
          simp
      omega
    · have hhead0 : ((dbLeaderDead primaries planDBs dc).countP
          (fun f => f.db == db && f.name == cid && f.shard == shard)) = 0 := by
        rw [List.countP_eq_zero]
        intro f hf
        have hfield := dbLeaderDead_fields _ _ _ _ hf
        have hne : dc.1 ≠ db := by
          intro he
          exact hnd.1 (by
            rw [he]
            exact List.mem_map.2 ⟨(db, cols), hrest, rfl⟩)
        simp [hfield, hne]
      rw [hhead0]
      simpa using ih hnd.2 hrest

/-- C7: for every shard of a planned collection in a database present
in `Plan.Databases` with a non-empty shards map, and every position `i`
of the shard's server list whose node is dead (no `Supervision.Health`
entry with Status GOOD), a `leaderOnDeadServer` finding is recorded
when `i = 0` and a `followerOnDeadServer` finding otherwise; and (with
the JS-object key uniqueness of the nested maps) at most one
`leaderOnDeadServer` finding matches the shard. -/
theorem c7_dead_server_findings (health : List (String × HealthRecord))
    (planCols : PlanCols) (planDBs : List String)
    (db : String) (cols : List (String × PlanCollection)) (cid : String)
    (col : PlanCollection) (m : List (String × List String))
    (shard : String) (servers : List String) (i : Nat)
    (h1 : (db, cols) ∈ planCols) (h2 : planDBs.contains db = true)
    (h3 : (cid, col) ∈ cols) (h4 : col.shards = some m)
    (h5 : (shard, servers) ∈ m) (h6 : i < servers.length)
    (hdead : ∀ rec : HealthRecord, (servers.get ⟨i, h6⟩, rec) ∈ health →
      rec.Status ≠ "GOOD")
    (hnd1 : (planCols.map Prod.fst).Nodup)
    (hnd2 : (cols.map Prod.fst).Nodup)
    (hnd3 : (m.map Prod.fst).Nodup) :
    (i = 0 →
      (⟨db, cid, shard, servers.get ⟨i, h6⟩, servers⟩ : DeadServerFinding) ∈
        (extractCollectionIntegrity planCols planDBs
          (extractPrimaries health)).leaderOnDeadServer) ∧
    (i ≠ 0 →
      (⟨db, cid, shard, servers.get ⟨i, h6⟩, servers⟩ : DeadServerFinding) ∈
        (extractCollectionIntegrity planCols planDBs
          (extractPrimaries health)).followerOnDeadServer) ∧
    ((extractCollectionIntegrity planCols planDBs
        (extractPrimaries health)).leaderOnDeadServer.countP
      (fun f => f.db == db && f.name == cid && f.shard == shard)) ≤ 1 := by
  have hdc : (extractPrimaries health).contains (servers.get ⟨i, h6⟩) = false := by
    cases hb : (extractPrimaries health).contains (servers.get ⟨i, h6⟩) with
    | false => rfl
    | true =>
      rcases (extractPrimaries_contains_iff health _).1 hb with ⟨rec, hmem, hst⟩
      exact absurd hst (hdead rec hmem)
  have hskip : ¬ noShardSkip col = true := by
    rw [noShardSkip_false_of_mem col m (shard, servers) h4 h5]
    exact Bool.false_ne_true
  refine ⟨?_, ?_, ?_⟩
  · intro hi0
    subst hi0
    show _ ∈ planCols.flatMap (dbLeaderDead (extractPrimaries health) planDBs)
    refine List.mem_flatMap.2 ⟨(db, cols), h1, ?_⟩
    unfold dbLeaderDead
    rw [if_pos h2]
    refine List.mem_flatMap.2 ⟨(cid, col), h3, ?_⟩
    unfold colLeaderDead
    rw [if_neg hskip]
    simp only [h4, Option.getD_some]
    refine List.mem_flatMap.2 ⟨(shard, servers), h5, ?_⟩
    exact mem_shardLeaderDead_of_dead _ _ _ _ _ h6 hdc
  · intro hi
    show _ ∈ planCols.flatMap (dbFollowerDead (extractPrimaries health) planDBs)
    refine List.mem_flatMap.2 ⟨(db, cols), h1, ?_⟩
    unfold dbFollowerDead
    rw [if_pos h2]
    refine List.mem_flatMap.2 ⟨(cid, col), h3, ?_⟩
    unfold colFollowerDead
    rw [if_neg hskip]
    simp only [h4, Option.getD_some]
    refine List.mem_flatMap.2 ⟨(shard, servers), h5, ?_⟩
    exact mem_shardFollowerDead_of_dead _ _ _ _ _ _ h6 hi hdc
  · show ((planCols.flatMap
        (dbLeaderDead (extractPrimaries health) planDBs)).countP
      (fun f => f.db == db && f.name == cid && f.shard == shard)) ≤ 1
    exact plan_leader_countP_le_one (extractPrimaries health) planDBs db cid
      shard cols col m h3 h4 hnd2 hnd3 planCols hnd1 h1

/-- C7 witness: in the concrete snapshot `c7Plan`/`c7Health` (shard
`s1` planned on `[A, B]`, only `A` GOOD), position 1 holds the dead
node `B`, so the follower finding is recorded and at most one leader
finding matches the shard. -/
theorem c7_dead_server_findings_witness :
    ((1 : Nat) = 0 →
      (⟨"d", "c", "s1", (["A", "B"] : List String).get ⟨1, by decide⟩,
          ["A", "B"]⟩ : DeadServerFinding) ∈
        (extractCollectionIntegrity c7Plan ["d"]
          (extractPrimaries c7Health)).leaderOnDeadServer) ∧
    ((1 : Nat) ≠ 0 →
      (⟨"d", "c", "s1", (["A", "B"] : List String).get ⟨1, by decide⟩,
          ["A", "B"]⟩ : DeadServerFinding) ∈
        (extractCollectionIntegrity c7Plan ["d"]
          (extractPrimaries c7Health)).followerOnDeadServer) ∧
    ((extractCollectionIntegrity c7Plan ["d"]
        (extractPrimaries c7Health)).leaderOnDeadServer.countP
      (fun f => f.db == "d" && f.name == "c" && f.shard == "s1")) ≤ 1 :=
  c7_dead_server_findings c7Health c7Plan ["d"] "d" [("c", c7Col)] "c" c7Col
    [("s1", ["A", "B"])] "s1" ["A", "B"] 1
    (by decide) (by decide) (by decide) rfl (by decide) (by decide)
    (by
      intro rec hmem
      rcases List.mem_singleton.1 hmem with h
      injection h with hk hv
      exact absurd hk (by decide))
    (by decide) (by decide) (by decide)

end Analyze
